import Mathlib

/-!
Verification of the jupiter-mcp client (`src/jupiter_api.py`, `src/server.py`)
against its natural-language specification.

The Python code is shallowly embedded: bytes are `List Nat` (values < 256),
Python dict/JSON values are a `Json` inductive, the aiohttp layer is a
function from requests to outcomes, and every public operation returns its
result envelope together with the list of HTTP requests it issued.

The snapshot of `src/jupiter_api.py` in this repository predates the
client-side custody mode: `src/server.py` constructs
`JupiterAPI(client_side_mode=...)` and the test-suite exercises the
client-side branches, but the method bodies for those branches are not in
the snapshot.  Where a definition models such a missing branch its doc
comment says so explicitly.
-/

set_option maxRecDepth 40000

/-! ## String helpers -/

/-- Substring containment: `pat` occurs contiguously in `s`. -/
def mentions (s pat : String) : Prop := pat.data <:+: s.data

instance (s pat : String) : Decidable (mentions s pat) :=
  inferInstanceAs (Decidable (pat.data <:+: s.data))

theorem mentions_of_append (a p b : String) : mentions (a ++ p ++ b) p := by
  refine ⟨a.data, b.data, ?_⟩
  have h1 : (a ++ p ++ b).data = (a ++ p).data ++ b.data := rfl
  have h2 : (a ++ p).data = a.data ++ p.data := rfl
  simp [h1, h2]

/-- The ASCII whitespace characters `str.strip` removes.  (Python also
strips some further Unicode whitespace; those are outside this model.) -/
def pyIsSpace (c : Char) : Bool :=
  c = ' ' || c = '\t' || c = '\n' || c = '\r' || c = '\x0b' || c = '\x0c'

def pyStripList (cs : List Char) : List Char :=
  ((cs.dropWhile pyIsSpace).reverse.dropWhile pyIsSpace).reverse

/-- Python `str.strip()` with no argument. -/
def pyStrip (s : String) : String := ⟨pyStripList s.data⟩

/-- Python truthiness test `not s or not s.strip()` used by the validators:
a string is "blank" when it is empty or whitespace-only. -/
def pyBlank (s : String) : Bool := s == "" || pyStrip s == ""

/-! ## Python `int(str)` -/

/-- One run of decimal digits in which single underscores may separate
digits (Python 3 `int` grammar).  The head character has already been
checked to be a digit by the caller. -/
def pyDigitsRun : List Char → Bool
  | [] => true
  | '_' :: c :: rest => c.isDigit && pyDigitsRun rest
  | c :: rest => c.isDigit && pyDigitsRun rest

def digitsVal (cs : List Char) : Nat :=
  cs.foldl (fun a c => a * 10 + (c.toNat - 48)) 0

/-- Parse an unsigned decimal literal as Python `int` does (digits with
optional single underscores between digits). -/
def pyParseDigits (cs : List Char) : Option Nat :=
  match cs with
  | [] => none
  | c :: _ =>
    if c.isDigit && pyDigitsRun cs then
      some (digitsVal (cs.filter (·.isDigit)))
    else none

/-- Model of Python `int(s)` on `str` input: optional surrounding
whitespace, optional sign, decimal digits with optional single
underscores.  Returns `none` where Python raises `ValueError`.
(Non-ASCII digits, accepted by Python, are outside this model.) -/
def pythonInt (s : String) : Option Int :=
  match (pyStrip s).data with
  | '+' :: rest => (pyParseDigits rest).map Int.ofNat
  | '-' :: rest => (pyParseDigits rest).map (fun n => -(n : Int))
  | cs => (pyParseDigits cs).map Int.ofNat

/-! ## Base64 (Python `base64.b64encode` / `b64decode(..., validate=True)`) -/

def b64Alphabet : List Char :=
  "ABCDEFGHIJKLMNOPQRSTUVWXYZabcdefghijklmnopqrstuvwxyz0123456789+/".data

def b64Char (v : Nat) : Char := b64Alphabet.getD v 'A'

/-- Index of the first occurrence of `c`. -/
def sextetIdx : List Char → Char → Option Nat
  | [], _ => none
  | a :: rest, c => if a = c then some 0 else (sextetIdx rest c).map (· + 1)

def sextetOfChar (c : Char) : Option Nat := sextetIdx b64Alphabet c

def isB64Char (c : Char) : Bool := (sextetOfChar c).isSome

/-- `base64.b64encode`, chunked three input bytes to four output chars. -/
def b64EncodeChunks : List Nat → List Char
  | [] => []
  | [b0] => [b64Char (b0 / 4), b64Char (b0 % 4 * 16), '=', '=']
  | [b0, b1] => [b64Char (b0 / 4), b64Char (b0 % 4 * 16 + b1 / 16),
      b64Char (b1 % 16 * 4), '=']
  | b0 :: b1 :: b2 :: rest =>
    b64Char (b0 / 4) :: b64Char (b0 % 4 * 16 + b1 / 16) ::
      b64Char (b1 % 16 * 4 + b2 / 64) :: b64Char (b2 % 64) :: b64EncodeChunks rest

def base64Encode (bs : List Nat) : String := ⟨b64EncodeChunks bs⟩

/-- Decode complete four-char groups; `'='` padding is legal only at the very
end (the strict-validation regex has already excluded interior padding, but
this decoder re-checks it, returning `none`). -/
def decodeB64Groups : List Char → Option (List Nat)
  | [] => some []
  | c0 :: c1 :: c2 :: c3 :: rest =>
    match sextetOfChar c0, sextetOfChar c1 with
    | some v0, some v1 =>
      if c2 = '=' then
        if c3 = '=' && rest.isEmpty then some [v0 * 4 + v1 / 16] else none
      else
        match sextetOfChar c2 with
        | some v2 =>
          if c3 = '=' then
            if rest.isEmpty then some [v0 * 4 + v1 / 16, v1 % 16 * 16 + v2 / 4]
            else none
          else
            match sextetOfChar c3 with
            | some v3 =>
              (decodeB64Groups rest).map
                (fun tl => (v0 * 4 + v1 / 16) :: (v1 % 16 * 16 + v2 / 4) ::
                  (v2 % 4 * 64 + v3) :: tl)
            | none => none
        | none => none
    | _, _ => none
  | _ => none

/-- `base64.b64decode(s, validate=True)`: reject non-ASCII input, then
require the regex `[A-Za-z0-9+/]*={0,2}` to match the whole string, then
require a length that is a multiple of four, then decode.  Error strings are
the messages of the exceptions CPython raises on each path. -/
def decodeBase64Strict (s : String) : Except String (List Nat) :=
  let cs := s.data
  if !cs.all (fun c => c.toNat < 128) then
    .error "string argument should contain only ASCII characters"
  else
    let pad := (cs.reverse.takeWhile (· == '=')).length
    let body := cs.take (cs.length - pad)
    if !(pad ≤ 2 && body.all isB64Char) then
      .error "Non-base64 digit found"
    else if cs.length % 4 ≠ 0 then
      .error "Incorrect padding"
    else
      match decodeB64Groups cs with
      | some bs => .ok bs
      | none => .error "Incorrect padding"

/-! ## JSON / Python dict values -/

inductive Json where
  | null
  | bool (b : Bool)
  | str (s : String)
  | num (n : Int)
  | arr (xs : List Json)
  | obj (kvs : List (String × Json))

/-- Key lookup in an object's association list (Python `d[k]` / `k in d`). -/
def kvLookup (kvs : List (String × Json)) (k : String) : Option Json :=
  match kvs with
  | [] => none
  | (k', v) :: rest => if k' = k then some v else kvLookup rest k

def jsonObjLookup (j : Json) (k : String) : Option Json :=
  match j with
  | .obj kvs => kvLookup kvs k
  | _ => none

/-! ## Solana versioned transactions (solders `VersionedTransaction`)

`VersionedTransaction.from_bytes` is bincode deserialization: a shortvec
(ShortU16) count of 64-byte signatures, followed by a versioned message,
with no bytes left over.  Only the message facts that signing consults are
retained: the required-signature count and the static account keys. -/

/-- Canonical ShortU16 decoding (solana `short_vec`): seven value bits per
byte, low group first, at most three bytes, rejecting zero continuation
groups ("alias") and a third byte above 3 (u16 overflow). -/
def shortvecDecode : List Nat → Option (Nat × List Nat)
  | [] => none
  | b0 :: r0 =>
    if b0 < 128 then some (b0, r0)
    else
      match r0 with
      | [] => none
      | b1 :: r1 =>
        if b1 = 0 then none
        else if b1 < 128 then some (b0 % 128 + b1 * 128, r1)
        else
          match r1 with
          | [] => none
          | b2 :: r2 =>
            if b2 = 0 then none
            else if b2 ≤ 3 then some (b0 % 128 + b1 % 128 * 128 + b2 * 16384, r2)
            else none

/-- ShortU16 encoding (values below 2^16). -/
def shortvecEncode (n : Nat) : List Nat :=
  if n < 128 then [n]
  else if n < 16384 then [n % 128 + 128, n / 128]
  else [n % 128 + 128, n / 128 % 128 + 128, n / 16384]

/-- Read exactly `n` bytes, returning them and the remainder. -/
def readBytes (n : Nat) (bs : List Nat) : Option (List Nat × List Nat) :=
  if n ≤ bs.length then some (bs.take n, bs.drop n) else none

/-- Read `k` fixed-width items of `w` bytes each. -/
def readFixedItems (w : Nat) : Nat → List Nat → Option (List (List Nat) × List Nat)
  | 0, bs => some ([], bs)
  | k + 1, bs =>
    (readBytes w bs).bind fun p =>
    (readFixedItems w k p.2).map fun q => (p.1 :: q.1, q.2)

/-- Run a consuming item parser `k` times. -/
def parseNItems (f : List Nat → Option (List Nat)) : Nat → List Nat → Option (List Nat)
  | 0, bs => some bs
  | k + 1, bs => (f bs).bind (parseNItems f k)

/-- One `CompiledInstruction`: program-id index byte, shortvec of account
index bytes, shortvec of data bytes. -/
def parseCompiledInstruction (bs : List Nat) : Option (List Nat) :=
  match bs with
  | [] => none
  | _pidx :: r =>
    (shortvecDecode r).bind fun na =>
    (readBytes na.1 na.2).bind fun ra =>
    (shortvecDecode ra.2).bind fun nd =>
    (readBytes nd.1 nd.2).map fun rd => rd.2

/-- One `MessageAddressTableLookup` (v0 messages): 32-byte account key,
shortvec of writable indexes, shortvec of readonly indexes. -/
def parseAddressTableLookup (bs : List Nat) : Option (List Nat) :=
  (readBytes 32 bs).bind fun rk =>
  (shortvecDecode rk.2).bind fun nw =>
  (readBytes nw.1 nw.2).bind fun rw =>
  (shortvecDecode rw.2).bind fun nr =>
  (readBytes nr.1 nr.2).map fun rr => rr.2

/-- The message facts consulted by `VersionedTransaction.try_new`. -/
structure MsgMeta where
  numRequired : Nat
  staticKeys : List (List Nat)
  deriving DecidableEq

/-- Message body shared by legacy and v0 messages: 3-byte header, shortvec
of 32-byte static account keys, 32-byte recent blockhash, shortvec of
compiled instructions. -/
def parseMessageBody (bs : List Nat) : Option (MsgMeta × List Nat) :=
  match bs with
  | nr :: _nrs :: _nru :: r =>
    (shortvecDecode r).bind fun nk =>
    (readFixedItems 32 nk.1 nk.2).bind fun keys =>
    (readBytes 32 keys.2).bind fun bh =>
    (shortvecDecode bh.2).bind fun ni =>
    (parseNItems parseCompiledInstruction ni.1 ni.2).map fun rest =>
      ({ numRequired := nr, staticKeys := keys.1 }, rest)
  | _ => none

/-- A versioned message, consuming the whole input: a first byte below 0x80
begins a legacy message; 0x80 exactly is the v0 prefix (body plus address
table lookups); any other version is unsupported. -/
def parseMessageExact (bs : List Nat) : Option MsgMeta :=
  match bs with
  | [] => none
  | b0 :: r =>
    if b0 < 128 then
      (parseMessageBody bs).bind fun m =>
        if m.2.isEmpty then some m.1 else none
    else if b0 = 128 then
      (parseMessageBody r).bind fun m =>
      (shortvecDecode m.2).bind fun nl =>
      (parseNItems parseAddressTableLookup nl.1 nl.2).bind fun rest =>
        if rest.isEmpty then some m.1 else none
    else none

/-- A parsed `VersionedTransaction`: its signatures, the raw bytes of its
message (solders re-serializes the message it parsed; for the canonical
encodings produced and consumed here that equals the raw slice), and the
message facts used for signing. -/
structure VTx where
  sigs : List (List Nat)
  msgBytes : List Nat
  meta : MsgMeta
  deriving DecidableEq

/-- `VersionedTransaction.from_bytes`. -/
def parseVersionedTx (bs : List Nat) : Option VTx :=
  (shortvecDecode bs).bind fun ns =>
  (readFixedItems 64 ns.1 ns.2).bind fun sigs =>
  (parseMessageExact sigs.2).map fun meta =>
    { sigs := sigs.1, msgBytes := sigs.2, meta := meta }

/-- `bytes(VersionedTransaction)`: shortvec signature count, the 64-byte
signatures, the message bytes. -/
def serializeVTx (tx : VTx) : List Nat :=
  shortvecEncode tx.sigs.length ++ tx.sigs.flatten ++ tx.msgBytes

/-- The all-zero (unpopulated) signature. -/
def defaultSig : List Nat := List.replicate 64 0

/-- Number of populated (non-default) signature slots. -/
def populatedSigCount (tx : VTx) : Nat :=
  (tx.sigs.filter (fun s => s ≠ defaultSig)).length

/-- A resolved signing keypair.  Ed25519 itself is abstracted: a keypair
carries its 32-byte public key, the base58 rendering `str(kp.pubkey())`,
and its signing function, which always produces a 64-byte, non-default,
byte-valued signature. -/
structure Keypair where
  pubkeyBytes : List Nat
  pubkeyStr : String
  sigOf : List Nat → List Nat
  sig_len : ∀ m, (sigOf m).length = 64
  sig_ne_default : ∀ m, sigOf m ≠ defaultSig
  sig_bytes_lt : ∀ m, ∀ b ∈ sigOf m, b < 256

/-- `VersionedTransaction(message, [keypair])`, i.e.
`VersionedTransaction::try_new(message, &[keypair])`: the single provided
signer must line up with the message's required signers, then the message
bytes are signed.  Error strings model the `SignerError` renderings. -/
def trySignTx (kp : Keypair) (tx : VTx) : Except String VTx :=
  if tx.meta.staticKeys.length < tx.meta.numRequired then
    .error "invalid message"
  else if tx.meta.numRequired < 1 then
    .error "too many signers"
  else if 1 < tx.meta.numRequired then
    .error "not enough signers"
  else
    match tx.meta.staticKeys with
    | k0 :: _ =>
      if k0 = kp.pubkeyBytes then
        .ok { sigs := [kp.sigOf tx.msgBytes], msgBytes := tx.msgBytes,
              meta := tx.meta }
      else .error "keypair-pubkey mismatch"
    | [] => .error "invalid message"

/-! ## Client state, network model, result envelope -/

/-- The `JupiterAPI` client state used by the modelled operations.

Modelled from the spec: the `client_side_mode` flag exists on the real
`JupiterAPI` (it is passed by `setup_server` in `src/server.py` and
exercised by the test-suite) but the snapshot of `src/jupiter_api.py` lacks
it.  Secret-key resolution (base58/base64 decoding of `PRIVATE_KEY` into an
Ed25519 keypair) is abstracted to an already-resolved `Option Keypair`:
`none` models an unset or undecodable `PRIVATE_KEY`. -/
structure ApiState where
  client_side_mode : Bool
  keypair : Option Keypair
  request_timeout : Nat

/-- `JupiterAPI.get_keypair`.  Modelled from the spec: in client-signing
mode keypair access fails with the "disabled in client-side mode" error
(per §4.2 of the spec and the test-suite); otherwise the memoized resolved
keypair is returned, or the missing-secret error is raised. -/
def ApiState.get_keypair (api : ApiState) : Except String Keypair :=
  if api.client_side_mode then
    .error "Keypair access is disabled in client-side mode"
  else
    match api.keypair with
    | some kp => .ok kp
    | none => .error "PRIVATE_KEY environment variable is required"

structure HttpReq where
  method : String
  url : String
  params : Option (List (String × String))
  json_data : Option Json

/-- Outcome of one remote HTTP exchange, as seen by `make_http_request`. -/
inductive NetOutcome where
  | ok (j : Json)
  | httpError (status : Nat) (body : String)
  | timedOut
  | fault (msg : String)

/-- The remote service plus transport: what aiohttp yields for a request. -/
def Net : Type := HttpReq → NetOutcome

/-- The uniform result envelope.  `wallet_address` and `hasMoreData` model
the extra dict entries some operations add. -/
structure EnvResult where
  success : Bool
  data : Option Json
  error : Option String
  wallet_address : Option String
  hasMoreData : Option Json

def envFail (e : String) : EnvResult := ⟨false, none, some e, none, none⟩

def envOkData (d : Json) : EnvResult := ⟨true, some d, none, none, none⟩

/-- `JupiterAPI.make_http_request`: applies the per-call timeout override or
the configured default, returns the JSON body on HTTP 200, and otherwise
raises the exceptions of the source (the non-200 `Exception` is re-caught
by the generic handler of the same `try`, hence the "Request failed: "
wrapping around the `HTTP {status}: {text}` message). -/
def make_http_request (api : ApiState) (net : Net) (method url : String)
    (params : Option (List (String × String))) (json_data : Option Json)
    (timeout : Option Nat) : Except String Json × HttpReq :=
  let t := timeout.getD api.request_timeout
  let req : HttpReq := ⟨method, url, params, json_data⟩
  ((match net req with
    | .ok j => .ok j
    | .httpError status body =>
      .error ("Request failed: " ++ ("HTTP " ++ toString status ++ ": " ++ body))
    | .timedOut => .error ("Request timed out after " ++ toString t ++ " seconds")
    | .fault m => .error ("Request failed: " ++ m)), req)

/-! ## Constants (`src/jupiter_api.py` module level) -/

def DEV_REFERRER_WALLET : String := "8cK8hCyRQCp52nVuPLnLL71afkRvRcFibSwHMjGFT8bm"

def ultraBaseUrl : String := "https://lite-api.jup.ag/ultra/v1"

def triggerBaseUrl : String := "https://lite-api.jup.ag/trigger/v1"

/-! ## Transaction signing (`JupiterAPI.sign_transaction`) -/

/-- Stand-in for the opaque complaint text of the solders/bincode
deserializer wrapped by the "Invalid transaction format" failure. -/
def txParseFailMsg : String := "failed to deserialize versioned transaction"

/-- Body of the outer `try` of `sign_transaction`: the five validations in
source order (non-empty input, length a multiple of 4 — with keypair
resolution between it and the decode, as in the source —, strict base64
decode, non-empty decoded bytes, transaction parse), then signing. -/
def signTransactionBody (api : ApiState) (transaction_base64 : String) :
    Except String String :=
  if transaction_base64 = "" then
    .error "Transaction base64 string cannot be empty"
  else if transaction_base64.length % 4 ≠ 0 then
    .error "Invalid base64-encoded string: number of data characters must be a multiple of 4"
  else
    match api.get_keypair with
    | .error e => .error e
    | .ok kp =>
      match decodeBase64Strict transaction_base64 with
      | .error dm => .error ("Invalid base64-encoded string: " ++ dm)
      | .ok tbytes =>
        if tbytes.isEmpty then
          .error "Transaction bytes cannot be empty after decoding"
        else
          match parseVersionedTx tbytes with
          | none => .error ("Invalid transaction format: " ++ txParseFailMsg)
          | some tx =>
            match trySignTx kp tx with
            | .error e => .error e
            | .ok signed => .ok (base64Encode (serializeVTx signed))

/-- `JupiterAPI.sign_transaction`: every failure of the body is re-raised
as `Exception("Failed to sign transaction: ...")`. -/
def sign_transaction (api : ApiState) (transaction_base64 : String) :
    Except String String :=
  match signTransactionBody api transaction_base64 with
  | .ok r => .ok r
  | .error e => .error ("Failed to sign transaction: " ++ e)

/-! ## Operations -/

/-- `JupiterAPI.get_swap_quote`. -/
def get_swap_quote (api : ApiState) (net : Net)
    (input_mint output_mint amount : String) : EnvResult × List HttpReq :=
  if pyBlank input_mint then (envFail "input_mint cannot be empty", [])
  else if pyBlank output_mint then (envFail "output_mint cannot be empty", [])
  else if pyBlank amount then (envFail "amount cannot be empty", [])
  else
    match pythonInt amount with
    | none => (envFail "amount must be a valid number", [])
    | some n =>
      if n ≤ 0 then (envFail "amount must be a positive number", [])
      else
        match api.get_keypair with
        | .error e => (envFail ("Failed to get swap quote: " ++ e), [])
        | .ok kp =>
          let ps := [("inputMint", input_mint), ("outputMint", output_mint),
                     ("amount", amount), ("taker", kp.pubkeyStr),
                     ("referralAccount", DEV_REFERRER_WALLET),
                     ("referralFee", "255")]
          let r := make_http_request api net "GET" (ultraBaseUrl ++ "/order")
            (some ps) none none
          ((match r.1 with
            | .ok j => envOkData j
            | .error e => envFail ("Failed to get swap quote: " ++ e)), [r.2])

/-- `JupiterAPI.execute_swap_transaction`.  The client-side gate at the top
is modelled from the spec (§4.1) and the test-suite; the snapshot holds only
the server-signing body, which follows it verbatim: validations raised as
`ValueError` surface unprefixed via the outer handler, a signing failure is
wrapped (again) with "Failed to sign transaction: ", and the signed
transaction is POSTed with the request id. -/
def execute_swap_transaction (api : ApiState) (net : Net)
    (transaction request_id : String) : EnvResult × List HttpReq :=
  if api.client_side_mode then
    (envFail "execute_swap_transaction is disabled in client-side mode", [])
  else if pyBlank transaction then (envFail "Transaction cannot be empty", [])
  else if pyBlank request_id then (envFail "Request ID cannot be empty", [])
  else
    match sign_transaction api transaction with
    | .error se => (envFail ("Failed to sign transaction: " ++ se), [])
    | .ok signed =>
      let payload := Json.obj [("signedTransaction", .str signed),
                               ("requestId", .str request_id)]
      let r := make_http_request api net "POST" (ultraBaseUrl ++ "/execute")
        none (some payload) none
      ((match r.1 with
        | .ok j => envOkData j
        | .error e => envFail e), [r.2])

/-- `JupiterAPI.execute_limit_order`.  Same shape as
`execute_swap_transaction` (client-side gate modelled from the spec), but
against the trigger base URL. -/
def execute_limit_order (api : ApiState) (net : Net)
    (transaction request_id : String) : EnvResult × List HttpReq :=
  if api.client_side_mode then
    (envFail "execute_limit_order is disabled in client-side mode", [])
  else if pyBlank transaction then (envFail "Transaction cannot be empty", [])
  else if pyBlank request_id then (envFail "Request ID cannot be empty", [])
  else
    match sign_transaction api transaction with
    | .error se => (envFail ("Failed to sign transaction: " ++ se), [])
    | .ok signed =>
      let payload := Json.obj [("signedTransaction", .str signed),
                               ("requestId", .str request_id)]
      let r := make_http_request api net "POST" (triggerBaseUrl ++ "/execute")
        none (some payload) none
      ((match r.1 with
        | .ok j => envOkData j
        | .error e => envFail e), [r.2])

/-- Tail of `get_balances` once the wallet address is fixed: blank check,
GET, envelope. -/
def getBalancesSend (api : ApiState) (net : Net) (wa : String) :
    EnvResult × List HttpReq :=
  if pyBlank wa then (envFail "wallet_address cannot be empty", [])
  else
    let r := make_http_request api net "GET" (ultraBaseUrl ++ "/balances/" ++ wa)
      none none none
    ((match r.1 with
      | .ok j => ⟨true, some j, none, some wa, none⟩
      | .error e => envFail ("Failed to get balances: " ++ e)), [r.2])

/-- `JupiterAPI.get_balances`.  The client-side branch (address required,
no keypair fallback) is modelled from the spec (§4.1) and the test-suite;
the server-signing branch derives the address from the resolved keypair as
in the snapshot. -/
def get_balances (api : ApiState) (net : Net)
    (wallet_address : Option String) : EnvResult × List HttpReq :=
  match wallet_address with
  | some wa => getBalancesSend api net wa
  | none =>
    if api.client_side_mode then
      (envFail "wallet_address parameter is required in client-side mode", [])
    else
      match api.get_keypair with
      | .error e => (envFail ("Failed to get balances: " ++ e), [])
      | .ok kp => getBalancesSend api net kp.pubkeyStr

/-- Tail of `create_limit_order` once the maker address is fixed: build the
`params` object (optional slippage and expiry, unconditional `feeBps`), the
payload, POST it, envelope. -/
def createLimitOrderSend (api : ApiState) (net : Net)
    (input_mint output_mint making_amount taking_amount : String)
    (slippage_bps expired_at : Option Int) (maker : String) :
    EnvResult × List HttpReq :=
  let prms : List (String × String) :=
    [("makingAmount", making_amount), ("takingAmount", taking_amount)]
    ++ (match slippage_bps with
        | some v => if 0 < v then [("slippageBps", toString v)] else []
        | none => [])
    ++ (match expired_at with
        | some v => [("expiredAt", toString v)]
        | none => [])
    ++ (if DEV_REFERRER_WALLET ≠ "" then [("feeBps", "255")] else [])
  let payload := Json.obj
    [("inputMint", .str input_mint), ("outputMint", .str output_mint),
     ("maker", .str maker), ("payer", .str maker),
     ("params", Json.obj (prms.map fun p => (p.1, Json.str p.2))),
     ("computeUnitPrice", .str "auto")]
  let r := make_http_request api net "POST" (triggerBaseUrl ++ "/createOrder")
    none (some payload) none
  ((match r.1 with
    | .ok j => envOkData j
    | .error e => envFail ("Failed to create limit order: " ++ e)), [r.2])

/-- `JupiterAPI.create_limit_order`.  The snapshot takes no address
argument and always uses the configured wallet as maker/payer; the
`user_address` parameter and its client-side requirement are modelled from
the spec (§4.1: the address is required in client-signing mode, and an
explicitly supplied address is used as the actor) and the test-suite. -/
def create_limit_order (api : ApiState) (net : Net)
    (input_mint output_mint making_amount taking_amount : String)
    (slippage_bps expired_at : Option Int)
    (user_address : Option String) : EnvResult × List HttpReq :=
  if pyBlank input_mint then (envFail "input_mint cannot be empty", [])
  else if pyBlank output_mint then (envFail "output_mint cannot be empty", [])
  else if pyBlank making_amount then (envFail "making_amount cannot be empty", [])
  else if pyBlank taking_amount then (envFail "taking_amount cannot be empty", [])
  else
    match pythonInt making_amount, pythonInt taking_amount with
    | some mk, some tk =>
      if mk ≤ 0 ∨ tk ≤ 0 then (envFail "amounts must be positive numbers", [])
      else
        match user_address with
        | some ua =>
          if ua = "" then
            if api.client_side_mode then
              (envFail "user_address parameter is required in client-side mode", [])
            else
              match api.get_keypair with
              | .error e => (envFail ("Failed to create limit order: " ++ e), [])
              | .ok kp =>
                createLimitOrderSend api net input_mint output_mint
                  making_amount taking_amount slippage_bps expired_at kp.pubkeyStr
          else
            createLimitOrderSend api net input_mint output_mint
              making_amount taking_amount slippage_bps expired_at ua
        | none =>
          if api.client_side_mode then
            (envFail "user_address parameter is required in client-side mode", [])
          else
            match api.get_keypair with
            | .error e => (envFail ("Failed to create limit order: " ++ e), [])
            | .ok kp =>
              createLimitOrderSend api net input_mint output_mint
                making_amount taking_amount slippage_bps expired_at kp.pubkeyStr
    | _, _ => (envFail "amounts must be valid numbers", [])

/-- `JupiterAPI.cancel_limit_orders`: the maker comes from the configured
wallet; a provided non-empty order list is validated element-wise and added
to the payload, while `None` (and, by the same truthiness test, an empty
list) leaves the payload without an `orders` field. -/
def cancel_limit_orders (api : ApiState) (net : Net)
    (orders : Option (List String)) : EnvResult × List HttpReq :=
  match api.get_keypair with
  | .error e => (envFail ("Failed to cancel orders: " ++ e), [])
  | .ok kp =>
    let base : List (String × Json) :=
      [("maker", Json.str kp.pubkeyStr), ("computeUnitPrice", Json.str "auto")]
    let withOrders : Except String (List (String × Json)) :=
      match orders with
      | some os =>
        if 0 < os.length then
          if os.any pyBlank then .error "order addresses cannot be empty"
          else .ok (base ++ [("orders", Json.arr (os.map Json.str))])
        else .ok base
      | none => .ok base
    match withOrders with
    | .error e => (envFail e, [])
    | .ok payload =>
      let r := make_http_request api net "POST"
        (triggerBaseUrl ++ "/cancelOrders") none (some (Json.obj payload)) none
      ((match r.1 with
        | .ok j => envOkData j
        | .error e => envFail ("Failed to cancel orders: " ++ e)), [r.2])

/-- Stand-in for the message of the `AttributeError` Python raises when
`.get` is called on a non-dict JSON payload in `get_limit_orders`. -/
def pyAttrErrMsg : String := "object has no attribute get"

/-- Tail of `get_limit_orders` once the wallet address is fixed: blank
check, query-parameter build (filters passed through when truthy, page
stringified), GET, then `hasMoreData` extraction with default `False` and
selection of the `orders` array (a non-dict payload makes `.get` raise,
landing in the generic handler; the `isinstance(response, list)` branch of
the snapshot is unreachable behind that `.get`). -/
def getLimitOrdersSend (api : ApiState) (net : Net)
    (order_status wa : String) (input_mint output_mint : Option String)
    (page : Option Int) : EnvResult × List HttpReq :=
  if pyBlank wa then (envFail "wallet_address cannot be empty", [])
  else
    let ps : List (String × String) :=
      [("orderStatus", order_status), ("wallet", wa)]
      ++ (match input_mint with
          | some s => if s ≠ "" then [("inputMint", s)] else []
          | none => [])
      ++ (match output_mint with
          | some s => if s ≠ "" then [("outputMint", s)] else []
          | none => [])
      ++ (match page with
          | some p => [("page", toString p)]
          | none => [])
    let r := make_http_request api net "GET"
      (triggerBaseUrl ++ "/getTriggerOrders") (some ps) none none
    ((match r.1 with
      | .error e => envFail ("Failed to get limit orders: " ++ e)
      | .ok resp =>
        match resp with
        | .obj kvs =>
          let hmd := (kvLookup kvs "hasMoreData").getD (Json.bool false)
          let data := (kvLookup kvs "orders").getD resp
          ⟨true, some data, none, some wa, some hmd⟩
        | _ => envFail ("Failed to get limit orders: " ++ pyAttrErrMsg)), [r.2])

/-- `JupiterAPI.get_limit_orders`.  The status filter admits exactly
"active" and "history"; the client-side branch (wallet address required, no
keypair fallback) is modelled from the spec (§4.1) and the test-suite. -/
def get_limit_orders (api : ApiState) (net : Net) (order_status : String)
    (wallet_address input_mint output_mint : Option String)
    (page : Option Int) : EnvResult × List HttpReq :=
  if order_status ≠ "active" ∧ order_status ≠ "history" then
    (envFail "order_status must be \x27active\x27 or \x27history\x27", [])
  else
    match wallet_address with
    | some wa => getLimitOrdersSend api net order_status wa input_mint output_mint page
    | none =>
      if api.client_side_mode then
        (envFail "wallet_address parameter is required in client-side mode", [])
      else
        match api.get_keypair with
        | .error e => (envFail ("Failed to get limit orders: " ++ e), [])
        | .ok kp =>
          getLimitOrdersSend api net order_status kp.pubkeyStr input_mint
            output_mint page

/-! ## Base64 lemmas -/

theorem sextetIdx_lt (l : List Char) (c : Char) (v : Nat)
    (h : sextetIdx l c = some v) : v < l.length := by
  induction l generalizing v with
  | nil => simp [sextetIdx] at h
  | cons a rest ih =>
    simp only [sextetIdx] at h
    split at h
    · simp only [Option.some.injEq] at h
      simp [← h]
    · match hr : sextetIdx rest c with
      | none => rw [hr] at h; simp at h
      | some w =>
        rw [hr] at h
        simp only [Option.map_some', Option.some.injEq] at h
        have := ih w hr
        simp [← h]
        omega

theorem sextet_lt64 (c : Char) (v : Nat) (h : sextetOfChar c = some v) : v < 64 := by
  have hl := sextetIdx_lt b64Alphabet c v h
  have : b64Alphabet.length = 64 := by decide
  omega

theorem sextet_b64Char : ∀ v, v < 64 → sextetOfChar (b64Char v) = some v := by decide

theorem b64Char_ne_pad : ∀ v, v < 64 → b64Char v ≠ '=' := by decide

theorem b64Char_ascii : ∀ v, v < 64 → (b64Char v).toNat < 128 := by decide

theorem isB64Char_b64Char (v : Nat) (h : v < 64) : isB64Char (b64Char v) = true := by
  unfold isB64Char
  rw [sextet_b64Char v h]
  rfl

theorem decodeGroups_encode (bs : List Nat) (h : ∀ b ∈ bs, b < 256) :
    decodeB64Groups (b64EncodeChunks bs) = some bs := by
  induction bs using b64EncodeChunks.induct with
  | case1 => rfl
  | case2 b0 =>
    have hb0 : b0 < 256 := h b0 (by simp)
    simp only [b64EncodeChunks, decodeB64Groups]
    rw [sextet_b64Char (b0 / 4) (by omega), sextet_b64Char (b0 % 4 * 16) (by omega)]
    simp
    omega
  | case3 b0 b1 =>
    have hb0 : b0 < 256 := h b0 (by simp)
    have hb1 : b1 < 256 := h b1 (by simp)
    simp only [b64EncodeChunks, decodeB64Groups]
    rw [sextet_b64Char (b0 / 4) (by omega),
      sextet_b64Char (b0 % 4 * 16 + b1 / 16) (by omega),
      sextet_b64Char (b1 % 16 * 4) (by omega)]
    have hne : b64Char (b1 % 16 * 4) ≠ '=' := b64Char_ne_pad _ (by omega)
    simp [hne]
    constructor
    · omega
    · omega
  | case4 b0 b1 b2 rest ih =>
    have hb0 : b0 < 256 := h b0 (by simp)
    have hb1 : b1 < 256 := h b1 (by simp)
    have hb2 : b2 < 256 := h b2 (by simp)
    have hrest : ∀ b ∈ rest, b < 256 := fun b hb => h b (by simp [hb])
    simp only [b64EncodeChunks, decodeB64Groups]
    rw [sextet_b64Char (b0 / 4) (by omega),
      sextet_b64Char (b0 % 4 * 16 + b1 / 16) (by omega),
      sextet_b64Char (b1 % 16 * 4 + b2 / 64) (by omega),
      sextet_b64Char (b2 % 64) (by omega)]
    have hne2 : b64Char (b1 % 16 * 4 + b2 / 64) ≠ '=' := b64Char_ne_pad _ (by omega)
    have hne3 : b64Char (b2 % 64) ≠ '=' := b64Char_ne_pad _ (by omega)
    simp [hne2, hne3, ih hrest]
    refine ⟨by omega, by omega, by omega⟩
theorem encode_shape (bs : List Nat) (h : ∀ b ∈ bs, b < 256) :
    ∃ body p, b64EncodeChunks bs = body ++ List.replicate p '=' ∧
      (∀ c ∈ body, isB64Char c = true) ∧ (∀ c ∈ body, c.toNat < 128) ∧
      p ≤ 2 ∧ (b64EncodeChunks bs).length % 4 = 0 := by
  induction bs using b64EncodeChunks.induct with
  | case1 => exact ⟨[], 0, rfl, by simp, by simp, by omega, rfl⟩
  | case2 b0 =>
    have hb0 : b0 < 256 := h b0 (by simp)
    refine ⟨[b64Char (b0 / 4), b64Char (b0 % 4 * 16)], 2, rfl, ?_, ?_, by omega, by simp [b64EncodeChunks]⟩
    · intro c hc
      simp only [List.mem_cons, List.not_mem_nil, or_false] at hc
      rcases hc with hc | hc
      · exact hc ▸ isB64Char_b64Char _ (by omega)
      · exact hc ▸ isB64Char_b64Char _ (by omega)
    · intro c hc
      simp only [List.mem_cons, List.not_mem_nil, or_false] at hc
      rcases hc with hc | hc
      · exact hc ▸ b64Char_ascii _ (by omega)
      · exact hc ▸ b64Char_ascii _ (by omega)
  | case3 b0 b1 =>
    have hb0 : b0 < 256 := h b0 (by simp)
    have hb1 : b1 < 256 := h b1 (by simp)
    refine ⟨[b64Char (b0 / 4), b64Char (b0 % 4 * 16 + b1 / 16),
      b64Char (b1 % 16 * 4)], 1, rfl, ?_, ?_, by omega, by simp [b64EncodeChunks]⟩
    · intro c hc
      simp only [List.mem_cons, List.not_mem_nil, or_false] at hc
      rcases hc with hc | hc | hc
      · exact hc ▸ isB64Char_b64Char _ (by omega)
      · exact hc ▸ isB64Char_b64Char _ (by omega)
      · exact hc ▸ isB64Char_b64Char _ (by omega)
    · intro c hc
      simp only [List.mem_cons, List.not_mem_nil, or_false] at hc
      rcases hc with hc | hc | hc
      · exact hc ▸ b64Char_ascii _ (by omega)
      · exact hc ▸ b64Char_ascii _ (by omega)
      · exact hc ▸ b64Char_ascii _ (by omega)
  | case4 b0 b1 b2 rest ih =>
    have hb0 : b0 < 256 := h b0 (by simp)
    have hb1 : b1 < 256 := h b1 (by simp)
    have hb2 : b2 < 256 := h b2 (by simp)
    have hrest : ∀ b ∈ rest, b < 256 := fun b hb => h b (by simp [hb])
    obtain ⟨body, p, hEq, hB64, hAscii, hp, hLen⟩ := ih hrest
    refine ⟨b64Char (b0 / 4) :: b64Char (b0 % 4 * 16 + b1 / 16) ::
      b64Char (b1 % 16 * 4 + b2 / 64) :: b64Char (b2 % 64) :: body, p,
      ?_, ?_, ?_, hp, ?_⟩
    · simp [b64EncodeChunks, hEq]
    · intro c hc
      simp only [List.mem_cons] at hc
      rcases hc with hc | hc | hc | hc | hc
      · exact hc ▸ isB64Char_b64Char _ (by omega)
      · exact hc ▸ isB64Char_b64Char _ (by omega)
      · exact hc ▸ isB64Char_b64Char _ (by omega)
      · exact hc ▸ isB64Char_b64Char _ (by omega)
      · exact hB64 c hc
    · intro c hc
      simp only [List.mem_cons] at hc
      rcases hc with hc | hc | hc | hc | hc
      · exact hc ▸ b64Char_ascii _ (by omega)
      · exact hc ▸ b64Char_ascii _ (by omega)
      · exact hc ▸ b64Char_ascii _ (by omega)
      · exact hc ▸ b64Char_ascii _ (by omega)
      · exact hAscii c hc
    · simp only [b64EncodeChunks, List.length_cons]
      omega

theorem takeWhile_pad_append (p : Nat) (l : List Char)
    (hl : l.takeWhile (· == '=') = []) :
    ((List.replicate p '=' ++ l).takeWhile (· == '=')) = List.replicate p '=' := by
  induction p with
  | zero => simpa using hl
  | succ n ih => simp [List.replicate_succ, List.takeWhile_cons, ih]

theorem body_no_pad (body : List Char) (hb : ∀ c ∈ body, isB64Char c = true) :
    body.reverse.takeWhile (· == '=') = [] := by
  cases hr : body.reverse with
  | nil => rfl
  | cons c rest =>
    have hc : c ∈ body := by
      have h1 : c ∈ body.reverse := by rw [hr]; simp
      simpa using h1
    have h2 : isB64Char c = true := hb c hc
    have hne : c ≠ '=' := by
      intro he
      rw [he] at h2
      exact absurd h2 (by decide)
    simp [List.takeWhile_cons, hne]

/-- Round trip: strict decoding inverts encoding on byte-valued lists. -/
theorem decodeStrict_encode (bs : List Nat) (h : ∀ b ∈ bs, b < 256) :
    decodeBase64Strict (base64Encode bs) = .ok bs := by
  obtain ⟨body, p, hEq, hB64, hAscii, hp, hLen⟩ := encode_shape bs h
  have hdata : (base64Encode bs).data = b64EncodeChunks bs := rfl
  have hAsciiAll : (b64EncodeChunks bs).all (fun c => decide (c.toNat < 128)) = true := by
    rw [hEq]
    rw [List.all_append, Bool.and_eq_true]
    apply And.intro
    · exact List.all_eq_true.mpr (fun c hc => by simpa using hAscii c hc)
    · exact List.all_eq_true.mpr (fun c hc => by
        have : c = '=' := by simpa using List.eq_of_mem_replicate hc
        simp [this])
  have hPadLen : ((b64EncodeChunks bs).reverse.takeWhile (· == '=')).length = p := by
    rw [hEq, List.reverse_append, List.reverse_replicate,
      takeWhile_pad_append p body.reverse (body_no_pad body hB64),
      List.length_replicate]
  have hTake : (b64EncodeChunks bs).take ((b64EncodeChunks bs).length - p) = body := by
    rw [hEq]
    have hl2 : (body ++ List.replicate p '=').length - p = body.length := by
      simp
    rw [hl2]
    exact List.take_left body (List.replicate p '=')
  have hBodyAll : body.all isB64Char = true := List.all_eq_true.mpr hB64
  have hGroups := decodeGroups_encode bs h
  unfold decodeBase64Strict
  rw [hdata]
  simp [hAsciiAll, hPadLen, hTake, hBodyAll, hGroups, hp, hLen]

theorem decodeB64Groups_bounds : ∀ (cs : List Char) (bs : List Nat),
    decodeB64Groups cs = some bs → ∀ b ∈ bs, b < 256 := by
  intro cs
  induction cs using decodeB64Groups.induct with
  | case1 =>
    intro bs h
    simp only [decodeB64Groups, Option.some.injEq] at h
    simp [← h]
  | case2 c0 c1 c3 rest v0 v1 hv1 hv0 hcond =>
    intro bs h
    have hb0 := sextet_lt64 _ _ hv0
    have hb1 := sextet_lt64 _ _ hv1
    simp only [decodeB64Groups, hv0, hv1, if_pos rfl, hcond, if_true,
      Option.some.injEq] at h
    intro b hb
    rw [← h] at hb
    simp only [List.mem_singleton] at hb
    omega
  | case3 c0 c1 c3 rest v0 v1 hv1 hv0 hcond =>
    intro bs h
    simp only [decodeB64Groups, hv0, hv1, if_pos rfl, hcond, if_false] at h
    exact absurd h (by simp)
  | case4 c0 c1 c2 rest v0 v1 hv1 hv0 hc2 v2 hv2 hrest =>
    intro bs h
    have hb0 := sextet_lt64 _ _ hv0
    have hb1 := sextet_lt64 _ _ hv1
    have hb2 := sextet_lt64 _ _ hv2
    simp only [decodeB64Groups, hv0, hv1, if_neg hc2, hv2, if_pos rfl, hrest,
      if_true, Option.some.injEq] at h
    intro b hb
    rw [← h] at hb
    simp only [List.mem_cons, List.not_mem_nil, or_false] at hb
    rcases hb with hb | hb <;> omega
  | case5 c0 c1 c2 rest v0 v1 hv1 hv0 hc2 v2 hv2 hrest =>
    intro bs h
    simp only [decodeB64Groups, hv0, hv1, if_neg hc2, hv2, if_pos rfl, hrest,
      if_false] at h
    exact absurd h (by simp)
  | case6 c0 c1 c2 c3 rest v0 v1 hv1 hv0 hc2 v2 hv2 hc3 v3 hv3 ih =>
    intro bs h
    have hb0 := sextet_lt64 _ _ hv0
    have hb1 := sextet_lt64 _ _ hv1
    have hb2 := sextet_lt64 _ _ hv2
    have hb3 := sextet_lt64 _ _ hv3
    simp only [decodeB64Groups, hv0, hv1, if_neg hc2, hv2, if_neg hc3, hv3,
      Option.map_eq_some'] at h
    obtain ⟨tl, htl, hbs⟩ := h
    intro b hb
    rw [← hbs] at hb
    simp only [List.mem_cons] at hb
    rcases hb with hb | hb | hb | hb
    · omega
    · omega
    · omega
    · exact ih tl htl b hb
  | case7 c0 c1 c2 c3 rest v0 v1 hv1 hv0 hc2 v2 hv2 hc3 hv3 =>
    intro bs h
    simp only [decodeB64Groups, hv0, hv1, if_neg hc2, hv2, if_neg hc3, hv3] at h
    exact absurd h (by simp)
  | case8 c0 c1 c2 c3 rest v0 v1 hv1 hv0 hc2 hv2 =>
    intro bs h
    simp only [decodeB64Groups, hv0, hv1, if_neg hc2, hv2] at h
    exact absurd h (by simp)
  | case9 c0 c1 c2 c3 rest hnone =>
    intro bs h
    simp only [decodeB64Groups] at h
    exact Option.noConfusion h
  | case10 t h1 h2 =>
    intro bs h
    match t, h with
    | [], h => exact absurd rfl h1
    | c0 :: c1 :: c2 :: c3 :: rest, h =>
      exact absurd rfl (h2 c0 c1 c2 c3 rest)
    | [c], h => exact absurd h (by simp [decodeB64Groups])
    | [c, c'], h => exact absurd h (by simp [decodeB64Groups])
    | [c, c', c''], h => exact absurd h (by simp [decodeB64Groups])

theorem decodeStrict_ok_inv (s : String) (bs : List Nat)
    (h : decodeBase64Strict s = .ok bs) :
    decodeB64Groups s.data = some bs ∧ s.data.length % 4 = 0 := by
  dsimp only [decodeBase64Strict] at h
  split at h
  · exact absurd h (by simp)
  · split at h
    · exact absurd h (by simp)
    · split at h
      · exact absurd h (by simp)
      · rename_i hmod
        split at h
        · rename_i bs' heq
          simp only [Except.ok.injEq] at h
          exact ⟨by rw [heq, h], by simpa using hmod⟩
        · exact absurd h (by simp)

theorem decodeStrict_bounds (s : String) (bs : List Nat)
    (h : decodeBase64Strict s = .ok bs) : ∀ b ∈ bs, b < 256 :=
  decodeB64Groups_bounds s.data bs (decodeStrict_ok_inv s bs h).1

/-! ## Transaction-parse lemmas -/

theorem shortvecDecode_suffix (bs : List Nat) (n : Nat) (r : List Nat)
    (h : shortvecDecode bs = some (n, r)) : r <:+ bs := by
  rcases bs with _ | ⟨b0, _ | ⟨b1, _ | ⟨b2, r2⟩⟩⟩
  · exact absurd h (by simp [shortvecDecode])
  · simp only [shortvecDecode] at h
    split_ifs at h
    simp only [Option.some.injEq, Prod.mk.injEq] at h
    rw [← h.2]
    exact List.suffix_cons b0 []
  · simp only [shortvecDecode] at h
    split_ifs at h
    · simp only [Option.some.injEq, Prod.mk.injEq] at h
      rw [← h.2]
      exact List.suffix_cons b0 [b1]
    · simp only [Option.some.injEq, Prod.mk.injEq] at h
      rw [← h.2]
      exact (List.suffix_cons b1 []).trans (List.suffix_cons b0 [b1])
  · simp only [shortvecDecode] at h
    split_ifs at h
    · simp only [Option.some.injEq, Prod.mk.injEq] at h
      rw [← h.2]
      exact List.suffix_cons b0 (b1 :: b2 :: r2)
    · simp only [Option.some.injEq, Prod.mk.injEq] at h
      rw [← h.2]
      exact (List.suffix_cons b1 (b2 :: r2)).trans
        (List.suffix_cons b0 (b1 :: b2 :: r2))
    · simp only [Option.some.injEq, Prod.mk.injEq] at h
      rw [← h.2]
      exact ((List.suffix_cons b2 r2).trans
        (List.suffix_cons b1 (b2 :: r2))).trans
        (List.suffix_cons b0 (b1 :: b2 :: r2))

theorem readFixedItems_suffix (w : Nat) : ∀ (k : Nat) (bs : List Nat)
    (items : List (List Nat)) (r : List Nat),
    readFixedItems w k bs = some (items, r) → r <:+ bs := by
  intro k
  induction k with
  | zero =>
    intro bs items r h
    simp only [readFixedItems, Option.some.injEq, Prod.mk.injEq] at h
    rw [← h.2]
  | succ m ih =>
    intro bs items r h
    simp only [readFixedItems, Option.bind_eq_some, Option.map_eq_some'] at h
    obtain ⟨⟨taken, rest⟩, hrb, ⟨⟨items', r'⟩, hri, heq⟩⟩ := h
    simp only [Prod.mk.injEq] at heq
    have hsuf : r' <:+ rest := ih rest items' r' hri
    have hdrop : rest <:+ bs := by
      unfold readBytes at hrb
      split at hrb
      · simp only [Option.some.injEq, Prod.mk.injEq] at hrb
        rw [← hrb.2]
        exact List.drop_suffix w bs
      · exact absurd hrb (by simp)
    rw [← heq.2]
    exact hsuf.trans hdrop

theorem parseVersionedTx_msg_suffix (bs : List Nat) (tx : VTx)
    (h : parseVersionedTx bs = some tx) : tx.msgBytes <:+ bs := by
  simp only [parseVersionedTx, Option.bind_eq_some, Option.map_eq_some'] at h
  obtain ⟨⟨n, r⟩, hsv, ⟨⟨sigs, msgB⟩, hri, meta, hmsg, htx⟩⟩ := h
  have h1 : msgB <:+ r := readFixedItems_suffix 64 n r sigs msgB hri
  have h2 : r <:+ bs := shortvecDecode_suffix bs n r hsv
  rw [← htx]
  exact h1.trans h2

theorem parseVersionedTx_meta (bs : List Nat) (tx : VTx)
    (h : parseVersionedTx bs = some tx) :
    parseMessageExact tx.msgBytes = some tx.meta := by
  simp only [parseVersionedTx, Option.bind_eq_some, Option.map_eq_some'] at h
  obtain ⟨⟨n, r⟩, hsv, ⟨⟨sigs, msgB⟩, hri, meta, hmsg, htx⟩⟩ := h
  rw [← htx]
  exact hmsg

/-- Parsing the serialization of a freshly signed single-signature
transaction recovers it. -/
theorem parse_serialize_single (sig msg : List Nat) (meta : MsgMeta)
    (hlen : sig.length = 64) (hmsg : parseMessageExact msg = some meta) :
    parseVersionedTx (serializeVTx ⟨[sig], msg, meta⟩) = some ⟨[sig], msg, meta⟩ := by
  have hser : serializeVTx ⟨[sig], msg, meta⟩ = 1 :: (sig ++ msg) := by
    simp [serializeVTx, shortvecEncode]
  rw [hser]
  have hsv : shortvecDecode (1 :: (sig ++ msg)) = some (1, sig ++ msg) := by
    simp [shortvecDecode]
  have hrb : readBytes 64 (sig ++ msg) = some (sig, msg) := by
    unfold readBytes
    rw [if_pos (by simp [hlen])]
    rw [List.take_left' hlen, List.drop_left' hlen]
  have hri : readFixedItems 64 1 (sig ++ msg) = some ([sig], msg) := by
    simp [readFixedItems, hrb]
  simp [parseVersionedTx, hsv, hri, hmsg]

instance {e a : Type} [DecidableEq e] [DecidableEq a] : DecidableEq (Except e a) := fun x y =>
  match x, y with
  | .error u, .error v =>
    if h : u = v then isTrue (by rw [h]) else isFalse (by simp [h])
  | .error _, .ok _ => isFalse (by simp)
  | .ok _, .error _ => isFalse (by simp)
  | .ok u, .ok v =>
    if h : u = v then isTrue (by rw [h]) else isFalse (by simp [h])

theorem suffix_bounds (l1 l2 : List Nat) (hs : l1 <:+ l2)
    (h : ∀ b ∈ l2, b < 256) : ∀ b ∈ l1, b < 256 :=
  fun b hb => h b (hs.subset hb)

/-! ## Concrete fixtures for witnesses and counterexamples -/

/-- A concrete resolved keypair (Ed25519 abstracted). -/
def testKeypair : Keypair where
  pubkeyBytes := List.replicate 32 7
  pubkeyStr := "TESTPUBKEYBASE58"
  sigOf := fun _ => List.replicate 64 1
  sig_len := fun _ => by simp
  sig_ne_default := fun _ => by
    show List.replicate 64 1 ≠ defaultSig
    decide
  sig_bytes_lt := fun _ b hb => by
    have := List.eq_of_mem_replicate hb
    omega

/-- A server-signing-mode client with a resolved keypair. -/
def serverApi : ApiState := ⟨false, some testKeypair, 30⟩

/-- A client-signing-mode client (no keypair resolvable). -/
def clientApi : ApiState := ⟨true, none, 30⟩

/-- A remote side that never answers successfully. -/
def nullNet : Net := fun _ => .fault "no network"

/-- Legacy message: header (1,0,0), one static key (32 sevens, the test
keypair public key), zero blockhash, no instructions. -/
def testMsgBytes : List Nat :=
  [1, 0, 0] ++ [1] ++ List.replicate 32 7 ++ List.replicate 32 0 ++ [0]

def testMeta : MsgMeta := ⟨1, [List.replicate 32 7]⟩

/-- Unsigned test transaction: one all-zero signature slot plus the message. -/
def unsignedTxBytes : List Nat := [1] ++ List.replicate 64 0 ++ testMsgBytes

/-- The same transaction with its slot already populated. -/
def signedTxBytes : List Nat := [1] ++ List.replicate 64 1 ++ testMsgBytes

def unsignedTxB64 : String :=
  "AQAAAAAAAAAAAAAAAAAAAAAAAAAAAAAAAAAAAAAAAAAAAAAAAAAAAAAAAAAAAAAAAAAAAAAAAAAAAAAAAAAAAAABAAABBwcHBwcHBwcHBwcHBwcHBwcHBwcHBwcHBwcHBwcHBwcAAAAAAAAAAAAAAAAAAAAAAAAAAAAAAAAAAAAAAAAAAAA="

def signedTxB64 : String :=
  "AQEBAQEBAQEBAQEBAQEBAQEBAQEBAQEBAQEBAQEBAQEBAQEBAQEBAQEBAQEBAQEBAQEBAQEBAQEBAQEBAQEBAQEBAAABBwcHBwcHBwcHBwcHBwcHBwcHBwcHBwcHBwcHBwcHBwcAAAAAAAAAAAAAAAAAAAAAAAAAAAAAAAAAAAAAAAAAAAA="

example : decodeBase64Strict unsignedTxB64 = .ok unsignedTxBytes := by decide
example : parseVersionedTx unsignedTxBytes =
    some ⟨[List.replicate 64 0], testMsgBytes, testMeta⟩ := by decide
example : parseVersionedTx signedTxBytes =
    some ⟨[List.replicate 64 1], testMsgBytes, testMeta⟩ := by decide

/-! ## Claim theorems -/

/-- C1: for every client in client-signing mode and non-empty transaction
and request-id strings, both execute-class operations
(`execute_swap_transaction`, `execute_limit_order`) return an envelope
failure whose error message states the operation "is disabled in
client-side mode", and `make_http_request` is never invoked. -/
theorem C1_execute_disabled_client_mode (api : ApiState) (net : Net)
    (tx rid : String) (hmode : api.client_side_mode = true)
    (_htx : tx ≠ "") (_hrid : rid ≠ "") :
    ((execute_swap_transaction api net tx rid).1.success = false ∧
      (∃ e, (execute_swap_transaction api net tx rid).1.error = some e ∧
        mentions e "is disabled in client-side mode") ∧
      (execute_swap_transaction api net tx rid).2 = []) ∧
    ((execute_limit_order api net tx rid).1.success = false ∧
      (∃ e, (execute_limit_order api net tx rid).1.error = some e ∧
        mentions e "is disabled in client-side mode") ∧
      (execute_limit_order api net tx rid).2 = []) := by
  unfold execute_swap_transaction execute_limit_order
  rw [hmode]
  exact ⟨⟨rfl, ⟨_, rfl, by decide⟩, rfl⟩, ⟨rfl, ⟨_, rfl, by decide⟩, rfl⟩⟩

theorem C1_witness :
    clientApi.client_side_mode = true ∧ ("t" : String) ≠ "" ∧
    ("r" : String) ≠ "" ∧
    (((execute_swap_transaction clientApi nullNet "t" "r").1.success = false ∧
      (∃ e, (execute_swap_transaction clientApi nullNet "t" "r").1.error = some e ∧
        mentions e "is disabled in client-side mode") ∧
      (execute_swap_transaction clientApi nullNet "t" "r").2 = []) ∧
    ((execute_limit_order clientApi nullNet "t" "r").1.success = false ∧
      (∃ e, (execute_limit_order clientApi nullNet "t" "r").1.error = some e ∧
        mentions e "is disabled in client-side mode") ∧
      (execute_limit_order clientApi nullNet "t" "r").2 = [])) :=
  ⟨rfl, by decide, by decide,
    C1_execute_disabled_client_mode clientApi nullNet "t" "r" rfl
      (by decide) (by decide)⟩

/-- C10: calling `cancel_limit_orders` with an explicitly empty order list
produces exactly the same result (request body without an "orders" field,
same envelope) as omitting the argument: the empty list silently means
"cancel all". -/
theorem C10_cancel_empty_list_means_all (api : ApiState) (net : Net) :
    cancel_limit_orders api net (some []) = cancel_limit_orders api net none := by
  unfold cancel_limit_orders
  cases api.get_keypair with
  | error e => rfl
  | ok kp => rfl

/-- C6: `make_http_request` on a non-200 response fails with an error
embedding the numeric status code and the raw body text, and on timeout
fails with an error naming the effective timeout (per-call override if
given, else the configured default). -/
theorem C6_request_executor_errors (api : ApiState) (net : Net)
    (method url : String) (params : Option (List (String × String)))
    (body : Option Json) (tmo : Option Nat) :
    (∀ status text, net ⟨method, url, params, body⟩ = .httpError status text →
      ∃ e, (make_http_request api net method url params body tmo).1 = .error e ∧
        mentions e (toString status) ∧ mentions e text) ∧
    (net ⟨method, url, params, body⟩ = .timedOut →
      ∃ e, (make_http_request api net method url params body tmo).1 = .error e ∧
        mentions e (toString (tmo.getD api.request_timeout))) := by
  constructor
  · intro status text hnet
    have hm : (make_http_request api net method url params body tmo).1 =
        .error ("Request failed: " ++ ("HTTP " ++ toString status ++ ": " ++ text)) := by
      simp only [make_http_request, hnet]
    refine ⟨_, hm, ?_, ?_⟩
    · show (toString status).data <:+: _
      have hd : ("Request failed: " ++
          ("HTTP " ++ toString status ++ ": " ++ text)).data =
          ("Request failed: " ++ "HTTP ").data ++ (toString status).data ++
            (": " ++ text).data := by
        simp [String.data_append]
      rw [hd]
      exact List.infix_append _ _ _
    · show text.data <:+: _
      have hd : ("Request failed: " ++
          ("HTTP " ++ toString status ++ ": " ++ text)).data =
          ("Request failed: " ++ ("HTTP " ++ toString status ++ ": ")).data ++
            text.data ++ [] := by
        simp [String.data_append]
      rw [hd]
      exact List.infix_append _ _ _
  · intro hnet
    have hm : (make_http_request api net method url params body tmo).1 =
        .error ("Request timed out after " ++
          toString (tmo.getD api.request_timeout) ++ " seconds") := by
      simp only [make_http_request, hnet]
    refine ⟨_, hm, ?_⟩
    show (toString (tmo.getD api.request_timeout)).data <:+: _
    have hd : ("Request timed out after " ++
        toString (tmo.getD api.request_timeout) ++ " seconds").data =
        "Request timed out after ".data ++
          (toString (tmo.getD api.request_timeout)).data ++ " seconds".data := by
      simp [String.data_append]
    rw [hd]
    exact List.infix_append _ _ _

def httpErrNet : Net := fun _ => .httpError 404 "not found"

def timeoutNet : Net := fun _ => .timedOut

theorem C6_witness :
    (∃ e, (make_http_request serverApi httpErrNet "GET" "u" none none none).1 =
        .error e ∧ mentions e (toString 404) ∧ mentions e "not found") ∧
    (∃ e, (make_http_request serverApi timeoutNet "GET" "u" none none
        (some 5)).1 = .error e ∧
      mentions e (toString ((some 5).getD serverApi.request_timeout))) :=
  ⟨(C6_request_executor_errors serverApi httpErrNet "GET" "u" none none
      none).1 404 "not found" rfl,
   (C6_request_executor_errors serverApi timeoutNet "GET" "u" none none
      (some 5)).2 rfl⟩

/-- C7: batch-cancel with no explicit order list builds a request body that
lacks the "orders" field (cancel-all); with `["A","B"]` it builds a body
whose "orders" field is exactly `["A","B"]` in input order; a blank listed
identifier yields an envelope failure with no request sent. -/
theorem C7_cancel_orders_request_body (api : ApiState) (net : Net)
    (kp : Keypair) (hmode : api.client_side_mode = false)
    (hkp : api.keypair = some kp) :
    ((cancel_limit_orders api net none).2 =
        [⟨"POST", triggerBaseUrl ++ "/cancelOrders", none,
          some (Json.obj [("maker", Json.str kp.pubkeyStr),
            ("computeUnitPrice", Json.str "auto")])⟩] ∧
      jsonObjLookup (Json.obj [("maker", Json.str kp.pubkeyStr),
        ("computeUnitPrice", Json.str "auto")]) "orders" = none) ∧
    ((cancel_limit_orders api net (some ["A", "B"])).2 =
        [⟨"POST", triggerBaseUrl ++ "/cancelOrders", none,
          some (Json.obj [("maker", Json.str kp.pubkeyStr),
            ("computeUnitPrice", Json.str "auto"),
            ("orders", Json.arr [Json.str "A", Json.str "B"])])⟩] ∧
      jsonObjLookup (Json.obj [("maker", Json.str kp.pubkeyStr),
        ("computeUnitPrice", Json.str "auto"),
        ("orders", Json.arr [Json.str "A", Json.str "B"])]) "orders" =
        some (Json.arr [Json.str "A", Json.str "B"])) ∧
    (∀ orders : List String, (∃ o ∈ orders, pyBlank o = true) →
      (cancel_limit_orders api net (some orders)).1.success = false ∧
      (cancel_limit_orders api net (some orders)).2 = []) := by
  have hgk : api.get_keypair = .ok kp := by
    simp [ApiState.get_keypair, hmode, hkp]
  refine ⟨⟨?_, ?_⟩, ⟨?_, ?_⟩, ?_⟩
  · simp only [cancel_limit_orders, hgk]
    rfl
  · simp [jsonObjLookup, kvLookup]
  · have hany : (["A", "B"] : List String).any pyBlank = false := by decide
    simp only [cancel_limit_orders, hgk, hany]
    rfl
  · simp [jsonObjLookup, kvLookup]
  · intro orders ⟨o, ho, hblank⟩
    have hpos : 0 < orders.length := List.length_pos.mpr (List.ne_nil_of_mem ho)
    have hany : orders.any pyBlank = true := List.any_eq_true.mpr ⟨o, ho, hblank⟩
    simp only [cancel_limit_orders, hgk, hpos, if_true, hany]
    exact ⟨rfl, trivial⟩

theorem C7_witness :
    (cancel_limit_orders serverApi nullNet none).2 =
      [⟨"POST", triggerBaseUrl ++ "/cancelOrders", none,
        some (Json.obj [("maker", Json.str testKeypair.pubkeyStr),
          ("computeUnitPrice", Json.str "auto")])⟩] ∧
    (cancel_limit_orders serverApi nullNet (some [""])).1.success = false ∧
    (cancel_limit_orders serverApi nullNet (some [""])).2 = [] :=
  have h := C7_cancel_orders_request_body serverApi nullNet testKeypair rfl rfl
  have hb : ∃ o ∈ ([""] : List String), pyBlank o = true :=
    ⟨"", List.mem_singleton.mpr rfl, by decide⟩
  ⟨h.1.1, (h.2.2 [""] hb).1, (h.2.2 [""] hb).2⟩

/-- C5: for the amount-bearing operations, an amount string that does not
parse as an integer or parses non-positive yields an envelope failure
(success false, descriptive error) with no HTTP request issued. -/
theorem C5_amount_validation_no_network (api : ApiState) (net : Net)
    (im om amount mk tk : String) (slippage expired : Option Int)
    (ua : Option String) :
    ((∀ n, pythonInt amount = some n → n ≤ 0) →
      ∃ e, get_swap_quote api net im om amount = (envFail e, [])) ∧
    (((∀ n, pythonInt mk = some n → n ≤ 0) ∨
      (∀ n, pythonInt tk = some n → n ≤ 0)) →
      ∃ e, create_limit_order api net im om mk tk slippage expired ua =
        (envFail e, [])) := by
  constructor
  · intro hAmt
    unfold get_swap_quote
    split
    · exact ⟨_, rfl⟩
    · split
      · exact ⟨_, rfl⟩
      · split
        · exact ⟨_, rfl⟩
        · split
          · exact ⟨_, rfl⟩
          · rename_i n hn
            split
            · exact ⟨_, rfl⟩
            · rename_i hpos
              exact absurd (hAmt n hn) (by omega)
  · intro hOr
    unfold create_limit_order
    split
    · exact ⟨_, rfl⟩
    · split
      · exact ⟨_, rfl⟩
      · split
        · exact ⟨_, rfl⟩
        · split
          · exact ⟨_, rfl⟩
          · split
            · rename_i mkv tkv hmk htk
              split
              · exact ⟨_, rfl⟩
              · rename_i hpos
                rcases hOr with hH | hH
                · exact absurd (Or.inl (hH mkv hmk)) hpos
                · exact absurd (Or.inr (hH tkv htk)) hpos
            · exact ⟨_, rfl⟩

theorem C5_witness :
    (∀ n, pythonInt "0" = some n → n ≤ 0) ∧
    (∃ e, get_swap_quote serverApi nullNet "mintA" "mintB" "0" =
      (envFail e, [])) ∧
    (∀ n, pythonInt "abc" = some n → n ≤ 0) ∧
    (∃ e, create_limit_order serverApi nullNet "mintA" "mintB" "abc" "5"
      none none none = (envFail e, [])) :=
  have h0 : ∀ n, pythonInt "0" = some n → n ≤ 0 := fun n hn => by
    rw [show pythonInt "0" = some 0 from by decide] at hn
    simp only [Option.some.injEq] at hn
    omega
  have habc : ∀ n, pythonInt "abc" = some n → n ≤ 0 := fun n hn => by
    rw [show pythonInt "abc" = none from by decide] at hn
    exact absurd hn (by simp)
  have h := C5_amount_validation_no_network serverApi nullNet "mintA" "mintB"
    "0" "abc" "5" none none none
  ⟨h0, h.1 h0, habc, h.2 (Or.inl habc)⟩

/-- C9: every HTTP request issued by the fee-bearing operations carries the
fixed referral parameters — `referralAccount`/`referralFee=255` on the
quote query, `feeBps=255` inside the limit-order `params` object — for all
inputs, with no way to omit or change them per call. -/
theorem C9_referral_fee_unconditional (api : ApiState) (net : Net)
    (im om amount mk tk : String) (slippage expired : Option Int)
    (ua : Option String) :
    (∀ req ∈ (get_swap_quote api net im om amount).2,
      ∃ l, req.params = some l ∧
        ("referralAccount", DEV_REFERRER_WALLET) ∈ l ∧
        ("referralFee", "255") ∈ l) ∧
    (∀ req ∈ (create_limit_order api net im om mk tk slippage expired ua).2,
      ∃ pl b, req.json_data = some b ∧
        jsonObjLookup b "params" = some (Json.obj pl) ∧
        ("feeBps", Json.str "255") ∈ pl) := by
  have hsend : ∀ maker,
      ∀ req ∈ (createLimitOrderSend api net im om mk tk slippage expired maker).2,
      ∃ pl b, req.json_data = some b ∧
        jsonObjLookup b "params" = some (Json.obj pl) ∧
        ("feeBps", Json.str "255") ∈ pl := by
    intro maker req hreq
    simp only [createLimitOrderSend, List.mem_singleton] at hreq
    subst hreq
    refine ⟨List.map (fun p : String × String => (p.1, Json.str p.2))
      ([("makingAmount", mk), ("takingAmount", tk)] ++
        (match slippage with
         | some v => if 0 < v then [("slippageBps", toString v)] else []
         | none => []) ++
        (match expired with
         | some v => [("expiredAt", toString v)]
         | none => []) ++
        (if DEV_REFERRER_WALLET ≠ "" then [("feeBps", "255")] else [])), _,
      rfl, ?_, ?_⟩
    · simp [jsonObjLookup, kvLookup]
    · have hmem : (("feeBps" : String), ("255" : String)) ∈
          ([("makingAmount", mk), ("takingAmount", tk)] ++
            (match slippage with
             | some v => if 0 < v then [("slippageBps", toString v)] else []
             | none => []) ++
            (match expired with
             | some v => [("expiredAt", toString v)]
             | none => []) ++
            (if DEV_REFERRER_WALLET ≠ "" then [("feeBps", "255")] else [])) := by
        refine List.mem_append_right _ ?_
        rw [show (if DEV_REFERRER_WALLET ≠ "" then
          [(("feeBps" : String), ("255" : String))] else []) =
          [("feeBps", "255")] from by decide]
        exact List.mem_singleton.mpr rfl
      exact List.mem_map_of_mem (fun p : String × String => (p.1, Json.str p.2)) hmem
  constructor
  · intro req hreq
    unfold get_swap_quote at hreq
    split at hreq
    · exact absurd hreq (by simp)
    · split at hreq
      · exact absurd hreq (by simp)
      · split at hreq
        · exact absurd hreq (by simp)
        · split at hreq
          · exact absurd hreq (by simp)
          · split at hreq
            · exact absurd hreq (by simp)
            · split at hreq
              · exact absurd hreq (by simp)
              · rename_i kp hkp
                simp only [List.mem_singleton] at hreq
                subst hreq
                refine ⟨_, rfl, ?_, ?_⟩
                · simp
                · simp
  · intro req hreq
    unfold create_limit_order at hreq
    split at hreq
    · exact absurd hreq (by simp)
    · split at hreq
      · exact absurd hreq (by simp)
      · split at hreq
        · exact absurd hreq (by simp)
        · split at hreq
          · exact absurd hreq (by simp)
          · split at hreq
            · split at hreq
              · exact absurd hreq (by simp)
              · split at hreq
                · rename_i ua' hua
                  split at hreq
                  · split at hreq
                    · exact absurd hreq (by simp)
                    · split at hreq
                      · exact absurd hreq (by simp)
                      · exact hsend _ req hreq
                  · exact hsend _ req hreq
                · split at hreq
                  · exact absurd hreq (by simp)
                  · split at hreq
                    · exact absurd hreq (by simp)
                    · exact hsend _ req hreq
            · exact absurd hreq (by simp)

def c9QuoteReq : HttpReq :=
  ⟨"GET", ultraBaseUrl ++ "/order",
    some [("inputMint", "A"), ("outputMint", "B"), ("amount", "5"),
      ("taker", "TESTPUBKEYBASE58"),
      ("referralAccount", DEV_REFERRER_WALLET), ("referralFee", "255")], none⟩

def c9CreateReq : HttpReq :=
  ⟨"POST", triggerBaseUrl ++ "/createOrder", none,
    some (Json.obj [("inputMint", .str "A"), ("outputMint", .str "B"),
      ("maker", .str "TESTPUBKEYBASE58"), ("payer", .str "TESTPUBKEYBASE58"),
      ("params", Json.obj [("makingAmount", .str "5"),
        ("takingAmount", .str "6"), ("feeBps", .str "255")]),
      ("computeUnitPrice", .str "auto")])⟩

theorem C9_witness :
    (∃ l, c9QuoteReq.params = some l ∧
      ("referralAccount", DEV_REFERRER_WALLET) ∈ l ∧
      ("referralFee", "255") ∈ l) ∧
    (∃ pl b, c9CreateReq.json_data = some b ∧
      jsonObjLookup b "params" = some (Json.obj pl) ∧
      ("feeBps", Json.str "255") ∈ pl) :=
  have h := C9_referral_fee_unconditional serverApi nullNet "A" "B" "5" "5"
    "6" none none none
  ⟨h.1 c9QuoteReq (List.mem_singleton.mpr rfl),
   h.2 c9CreateReq (List.mem_singleton.mpr rfl)⟩

/-- C8: `get_limit_orders` accepts exactly the status filters "active" and
"history" — any other value fails before any network call; on success the
optional pagination and mint-filter parameters pass through unmodified, the
data is the payload's orders array, and the envelope surfaces the payload's
`hasMoreData` boolean, defaulting to false when absent. -/
theorem C8_get_limit_orders_contract (api : ApiState) (net : Net)
    (st wa im om : String) (p : Int) :
    (st ≠ "active" → st ≠ "history" →
      get_limit_orders api net st (some wa) (some im) (some om) (some p) =
        (envFail "order_status must be \x27active\x27 or \x27history\x27", [])) ∧
    ((st = "active" ∨ st = "history") → pyBlank wa = false → im ≠ "" → om ≠ "" →
      ((get_limit_orders api net st (some wa) (some im) (some om) (some p)).2 =
        [⟨"GET", triggerBaseUrl ++ "/getTriggerOrders",
          some [("orderStatus", st), ("wallet", wa), ("inputMint", im),
            ("outputMint", om), ("page", toString p)], none⟩] ∧
      (∀ kvs, net ⟨"GET", triggerBaseUrl ++ "/getTriggerOrders",
          some [("orderStatus", st), ("wallet", wa), ("inputMint", im),
            ("outputMint", om), ("page", toString p)], none⟩ =
          .ok (Json.obj kvs) →
        (get_limit_orders api net st (some wa) (some im) (some om)
            (some p)).1 =
          ⟨true, some ((kvLookup kvs "orders").getD (Json.obj kvs)), none,
            some wa,
            some ((kvLookup kvs "hasMoreData").getD (Json.bool false))⟩))) := by
  constructor
  · intro h1 h2
    unfold get_limit_orders
    rw [if_pos ⟨h1, h2⟩]
  · intro hst hwa him hom
    have hcond : ¬(st ≠ "active" ∧ st ≠ "history") := by
      rcases hst with h | h <;> simp [h]
    constructor
    · simp only [get_limit_orders, getLimitOrdersSend, hcond, if_neg, hwa,
        Bool.false_eq_true, if_false]
      rw [if_pos him, if_pos hom]
      simp only [List.cons_append, List.nil_append, List.singleton_append,
        List.append_assoc]
      rfl
    · intro kvs hnet
      simp only [get_limit_orders, getLimitOrdersSend, hcond, if_neg, hwa,
        Bool.false_eq_true, if_false]
      rw [if_pos him, if_pos hom]
      simp only [List.cons_append, List.nil_append, List.singleton_append,
        List.append_assoc, make_http_request]
      rw [hnet]

def c8Payload : List (String × Json) :=
  [("orders", Json.arr [Json.str "o1"]), ("hasMoreData", Json.bool false)]

def c8Net : Net := fun _ => .ok (Json.obj c8Payload)

theorem C8_witness :
    get_limit_orders serverApi nullNet "bogus" (some "W") (some "I")
      (some "O") (some 2) =
      (envFail "order_status must be \x27active\x27 or \x27history\x27", []) ∧
    (get_limit_orders serverApi c8Net "active" (some "W") (some "I")
        (some "O") (some 2)).1 =
      ⟨true, some ((kvLookup c8Payload "orders").getD (Json.obj c8Payload)),
        none, some "W",
        some ((kvLookup c8Payload "hasMoreData").getD (Json.bool false))⟩ :=
  ⟨(C8_get_limit_orders_contract serverApi nullNet "bogus" "W" "I" "O" 2).1
      (by decide) (by decide),
   ((C8_get_limit_orders_contract serverApi c8Net "active" "W" "I" "O" 2).2
      (Or.inl rfl) (by decide) (by decide) (by decide)).2 c8Payload rfl⟩

/-- C2: for operations taking an optional wallet/user address
(`get_balances`, `get_limit_orders`, `create_limit_order`): in
server-signing mode an absent address makes the request with the address
derived from the resolved keypair's public key; in client-signing mode an
absent address yields an envelope failure mentioning "required in
client-side mode" with no keypair fallback and no request issued. -/
theorem C2_optional_address_by_mode (apiS apiC : ApiState) (net : Net)
    (kp : Keypair) (im om mk tk : String)
    (hS : apiS.client_side_mode = false) (hkp : apiS.keypair = some kp)
    (hwa : pyBlank kp.pubkeyStr = false)
    (hC : apiC.client_side_mode = true)
    (him : pyBlank im = false) (hom : pyBlank om = false)
    (hmk : pyBlank mk = false) (htk : pyBlank tk = false)
    (hmkv : ∃ n, pythonInt mk = some n ∧ 0 < n)
    (htkv : ∃ n, pythonInt tk = some n ∧ 0 < n) :
    ((get_balances apiS net none).2 =
      [⟨"GET", ultraBaseUrl ++ "/balances/" ++ kp.pubkeyStr, none, none⟩]) ∧
    ((get_limit_orders apiS net "active" none none none none).2 =
      [⟨"GET", triggerBaseUrl ++ "/getTriggerOrders",
        some [("orderStatus", "active"), ("wallet", kp.pubkeyStr)], none⟩]) ∧
    ((create_limit_order apiS net im om mk tk none none none).2 =
      [⟨"POST", triggerBaseUrl ++ "/createOrder", none,
        some (Json.obj [("inputMint", .str im), ("outputMint", .str om),
          ("maker", .str kp.pubkeyStr), ("payer", .str kp.pubkeyStr),
          ("params", Json.obj [("makingAmount", .str mk),
            ("takingAmount", .str tk), ("feeBps", .str "255")]),
          ("computeUnitPrice", .str "auto")])⟩]) ∧
    (∃ e, get_balances apiC net none = (envFail e, []) ∧
      mentions e "required in client-side mode") ∧
    (∃ e, get_limit_orders apiC net "active" none none none none =
      (envFail e, []) ∧ mentions e "required in client-side mode") ∧
    (∃ e, create_limit_order apiC net im om mk tk none none none =
      (envFail e, []) ∧ mentions e "required in client-side mode") := by
  have hgkS : apiS.get_keypair = .ok kp := by
    simp [ApiState.get_keypair, hS, hkp]
  obtain ⟨mkv, hmkeq, hmkpos⟩ := hmkv
  obtain ⟨tkv, htkeq, htkpos⟩ := htkv
  refine ⟨?_, ?_, ?_, ?_, ?_, ?_⟩
  · simp only [get_balances, hS, Bool.false_eq_true, if_false, hgkS,
      getBalancesSend, hwa]
    rfl
  · unfold get_limit_orders
    rw [if_neg (by simp)]
    simp only [hC, hS, Bool.false_eq_true, if_false, hgkS,
      getLimitOrdersSend, hwa]
    rfl
  · have hposif : ¬(mkv ≤ 0 ∨ tkv ≤ 0) := by omega
    unfold create_limit_order
    rw [if_neg (by simp [him]), if_neg (by simp [hom]),
      if_neg (by simp [hmk]), if_neg (by simp [htk]), hmkeq, htkeq]
    simp only [if_neg hposif, hS, Bool.false_eq_true, if_false, hgkS,
      createLimitOrderSend]
    rfl
  · refine ⟨"wallet_address parameter is required in client-side mode",
      ?_, by decide⟩
    simp [get_balances, hC]
  · refine ⟨"wallet_address parameter is required in client-side mode",
      ?_, by decide⟩
    unfold get_limit_orders
    rw [if_neg (by simp)]
    simp [hC]
  · have hposif : ¬(mkv ≤ 0 ∨ tkv ≤ 0) := by omega
    refine ⟨"user_address parameter is required in client-side mode",
      ?_, by decide⟩
    unfold create_limit_order
    rw [if_neg (by simp [him]), if_neg (by simp [hom]),
      if_neg (by simp [hmk]), if_neg (by simp [htk]), hmkeq, htkeq]
    simp only [if_neg hposif, hC, if_true]

theorem C2_witness :
    ((get_balances serverApi nullNet none).2 =
      [⟨"GET", ultraBaseUrl ++ "/balances/" ++ testKeypair.pubkeyStr,
        none, none⟩]) ∧
    ((get_limit_orders serverApi nullNet "active" none none none none).2 =
      [⟨"GET", triggerBaseUrl ++ "/getTriggerOrders",
        some [("orderStatus", "active"), ("wallet", testKeypair.pubkeyStr)],
        none⟩]) ∧
    ((create_limit_order serverApi nullNet "A" "B" "5" "6" none none
        none).2 =
      [⟨"POST", triggerBaseUrl ++ "/createOrder", none,
        some (Json.obj [("inputMint", .str "A"), ("outputMint", .str "B"),
          ("maker", .str testKeypair.pubkeyStr),
          ("payer", .str testKeypair.pubkeyStr),
          ("params", Json.obj [("makingAmount", .str "5"),
            ("takingAmount", .str "6"), ("feeBps", .str "255")]),
          ("computeUnitPrice", .str "auto")])⟩]) ∧
    (∃ e, get_balances clientApi nullNet none = (envFail e, []) ∧
      mentions e "required in client-side mode") ∧
    (∃ e, get_limit_orders clientApi nullNet "active" none none none none =
      (envFail e, []) ∧ mentions e "required in client-side mode") ∧
    (∃ e, create_limit_order clientApi nullNet "A" "B" "5" "6" none none
      none = (envFail e, []) ∧ mentions e "required in client-side mode") :=
  C2_optional_address_by_mode serverApi clientApi nullNet testKeypair
    "A" "B" "5" "6" rfl rfl (by decide) rfl (by decide) (by decide)
    (by decide) (by decide) ⟨5, by decide, by decide⟩
    ⟨6, by decide, by decide⟩

/-- C4: `sign_transaction` performs its validations in the stated order —
non-empty input, length a multiple of 4, strict base64 decode, non-empty
decoded bytes, transaction parse — each with its own distinct failure for
the first condition violated, and every failure it raises reaches the
caller re-wrapped with the "Failed to sign transaction" prefix. -/
theorem C4_sign_validation_order (api : ApiState) (kp : Keypair) (s : String)
    (hmode : api.client_side_mode = false) (hkp : api.keypair = some kp) :
    (s = "" → sign_transaction api s =
      .error "Failed to sign transaction: Transaction base64 string cannot be empty") ∧
    (s ≠ "" → s.length % 4 ≠ 0 → sign_transaction api s =
      .error "Failed to sign transaction: Invalid base64-encoded string: number of data characters must be a multiple of 4") ∧
    (∀ dm, s ≠ "" → s.length % 4 = 0 → decodeBase64Strict s = .error dm →
      sign_transaction api s =
        .error ("Failed to sign transaction: Invalid base64-encoded string: " ++ dm)) ∧
    (s ≠ "" → s.length % 4 = 0 → decodeBase64Strict s = .ok [] →
      sign_transaction api s =
        .error "Failed to sign transaction: Transaction bytes cannot be empty after decoding") ∧
    (∀ bs, s ≠ "" → s.length % 4 = 0 → decodeBase64Strict s = .ok bs →
      bs ≠ [] → parseVersionedTx bs = none →
      sign_transaction api s =
        .error ("Failed to sign transaction: Invalid transaction format: " ++
          txParseFailMsg)) ∧
    (∀ e, sign_transaction api s = .error e →
      ∃ m, e = "Failed to sign transaction: " ++ m) := by
  have hgk : api.get_keypair = .ok kp := by
    simp [ApiState.get_keypair, hmode, hkp]
  refine ⟨?_, ?_, ?_, ?_, ?_, ?_⟩
  · intro h
    subst h
    rfl
  · intro h1 h2
    simp only [sign_transaction, signTransactionBody, if_neg h1, if_pos h2]
    rfl
  · intro dm h1 h2 hdm
    simp only [sign_transaction, signTransactionBody, if_neg h1,
      if_neg (show ¬s.length % 4 ≠ 0 by simp [h2]), hgk, hdm]
    rfl
  · intro h1 h2 hdec
    simp only [sign_transaction, signTransactionBody, if_neg h1,
      if_neg (show ¬s.length % 4 ≠ 0 by simp [h2]), hgk, hdec,
      List.isEmpty_nil, if_true]
    rfl
  · intro bs h1 h2 hdec hne hparse
    simp only [sign_transaction, signTransactionBody, if_neg h1,
      if_neg (show ¬s.length % 4 ≠ 0 by simp [h2]), hgk, hdec,
      if_neg (show ¬bs.isEmpty = true by simp [hne]), hparse]
    rfl
  · intro e he
    unfold sign_transaction at he
    cases hb : signTransactionBody api s with
    | ok r =>
      rw [hb] at he
      exact absurd he (by simp)
    | error m =>
      rw [hb] at he
      simp only [Except.error.injEq] at he
      exact ⟨m, he.symm⟩

theorem C4_witness :
    (sign_transaction serverApi "" =
      .error "Failed to sign transaction: Transaction base64 string cannot be empty") ∧
    (sign_transaction serverApi "AAA" =
      .error "Failed to sign transaction: Invalid base64-encoded string: number of data characters must be a multiple of 4") ∧
    (sign_transaction serverApi "####" =
      .error ("Failed to sign transaction: Invalid base64-encoded string: " ++
        "Non-base64 digit found")) ∧
    (sign_transaction serverApi "AAAA" =
      .error ("Failed to sign transaction: Invalid transaction format: " ++
        txParseFailMsg)) ∧
    (∃ m, "Failed to sign transaction: Transaction base64 string cannot be empty" =
      "Failed to sign transaction: " ++ m) :=
  have h1 := C4_sign_validation_order serverApi testKeypair "" rfl rfl
  have h2 := C4_sign_validation_order serverApi testKeypair "AAA" rfl rfl
  have h3 := C4_sign_validation_order serverApi testKeypair "####" rfl rfl
  have h5 := C4_sign_validation_order serverApi testKeypair "AAAA" rfl rfl
  ⟨h1.1 rfl,
   h2.2.1 (by decide) (by decide),
   h3.2.2.1 "Non-base64 digit found" (by decide) (by decide) (by decide),
   h5.2.2.2.2.1 [0, 0, 0] (by decide) (by decide) (by decide) (by decide)
     (by decide),
   h1.2.2.2.2.2 _ (h1.1 rfl)⟩

/-- C3 counterexample: an input that is valid base64 and parses as a
versioned transaction, on which `sign_transaction` succeeds, yet whose
output does NOT have one more populated signature slot than the input: the
input already carries a populated slot, and the output again has exactly
one. -/
theorem C3_counterexample :
    ∃ out outBytes inTx outTx,
      decodeBase64Strict signedTxB64 = .ok signedTxBytes ∧
      parseVersionedTx signedTxBytes = some inTx ∧
      sign_transaction serverApi signedTxB64 = .ok out ∧
      decodeBase64Strict out = .ok outBytes ∧
      parseVersionedTx outBytes = some outTx ∧
      outTx.msgBytes = inTx.msgBytes ∧
      populatedSigCount outTx ≠ populatedSigCount inTx + 1 :=
  ⟨signedTxB64, signedTxBytes,
    ⟨[List.replicate 64 1], testMsgBytes, testMeta⟩,
    ⟨[List.replicate 64 1], testMsgBytes, testMeta⟩,
    by decide, by decide, by decide, by decide, by decide, rfl, by decide⟩

/-- C3 (amended): for every syntactically valid base64 input whose decoded
bytes parse as a versioned transaction whose message designates exactly one
required signer — the configured keypair's public key — `sign_transaction`
returns a base64 string that decodes to a transaction with the input's
message bytes unchanged and exactly one populated signature slot: the
keypair's signature over the unchanged message (one more than the input
precisely when the input's slots are all unpopulated). -/
theorem C3_sign_roundtrip (api : ApiState) (kp : Keypair) (s : String)
    (bs : List Nat) (tx : VTx)
    (hmode : api.client_side_mode = false) (hkp : api.keypair = some kp)
    (hdec : decodeBase64Strict s = .ok bs)
    (hparse : parseVersionedTx bs = some tx)
    (hreq : tx.meta.numRequired = 1)
    (hsigner : tx.meta.staticKeys.head? = some kp.pubkeyBytes) :
    ∃ out outTx,
      sign_transaction api s = .ok out ∧
      decodeBase64Strict out = .ok (serializeVTx outTx) ∧
      parseVersionedTx (serializeVTx outTx) = some outTx ∧
      outTx.msgBytes = tx.msgBytes ∧
      outTx.sigs = [kp.sigOf tx.msgBytes] ∧
      populatedSigCount outTx = 1 := by
  have hgk : api.get_keypair = .ok kp := by
    simp [ApiState.get_keypair, hmode, hkp]
  have hbne : bs ≠ [] := by
    intro h
    subst h
    simp [parseVersionedTx, shortvecDecode] at hparse
  have hsne : s ≠ "" := by
    intro h
    subst h
    have h0 : decodeBase64Strict "" = Except.ok ([] : List Nat) := by decide
    rw [h0] at hdec
    simp only [Except.ok.injEq] at hdec
    exact hbne hdec.symm
  have hlen : s.length % 4 = 0 := (decodeStrict_ok_inv s bs hdec).2
  -- the signed transaction produced by `VersionedTransaction(message, [kp])`
  have hsign : trySignTx kp tx =
      .ok ⟨[kp.sigOf tx.msgBytes], tx.msgBytes, tx.meta⟩ := by
    cases hsk : tx.meta.staticKeys with
    | nil => rw [hsk] at hsigner; exact absurd hsigner (by simp)
    | cons k0 r =>
      rw [hsk] at hsigner
      simp only [List.head?_cons, Option.some.injEq] at hsigner
      unfold trySignTx
      rw [hreq, hsk]
      rw [if_neg (by simp), if_neg (by omega), if_neg (by omega)]
      subst hsigner
      simp
  have hout : sign_transaction api s =
      .ok (base64Encode (serializeVTx
        ⟨[kp.sigOf tx.msgBytes], tx.msgBytes, tx.meta⟩)) := by
    simp only [sign_transaction, signTransactionBody, if_neg hsne,
      if_neg (show ¬s.length % 4 ≠ 0 by simp [hlen]), hgk, hdec,
      if_neg (show ¬bs.isEmpty = true by simp [hbne]), hparse, hsign]
  have hser : serializeVTx ⟨[kp.sigOf tx.msgBytes], tx.msgBytes, tx.meta⟩ =
      1 :: (kp.sigOf tx.msgBytes ++ tx.msgBytes) := by
    simp [serializeVTx, shortvecEncode]
  have hbounds : ∀ b ∈ serializeVTx
      ⟨[kp.sigOf tx.msgBytes], tx.msgBytes, tx.meta⟩, b < 256 := by
    rw [hser]
    intro b hb
    rcases List.mem_cons.mp hb with hb | hb
    · omega
    · rcases List.mem_append.mp hb with hb | hb
      · exact kp.sig_bytes_lt tx.msgBytes b hb
      · exact suffix_bounds tx.msgBytes bs
          (parseVersionedTx_msg_suffix bs tx hparse)
          (decodeStrict_bounds s bs hdec) b hb
  refine ⟨_, ⟨[kp.sigOf tx.msgBytes], tx.msgBytes, tx.meta⟩, hout, ?_, ?_,
    rfl, rfl, ?_⟩
  · exact decodeStrict_encode _ hbounds
  · exact parse_serialize_single (kp.sigOf tx.msgBytes) tx.msgBytes tx.meta
      (kp.sig_len tx.msgBytes) (parseVersionedTx_meta bs tx hparse)
  · simp [populatedSigCount, kp.sig_ne_default tx.msgBytes]

theorem C3_witness :
    serverApi.client_side_mode = false ∧
    serverApi.keypair = some testKeypair ∧
    decodeBase64Strict unsignedTxB64 = .ok unsignedTxBytes ∧
    parseVersionedTx unsignedTxBytes =
      some ⟨[List.replicate 64 0], testMsgBytes, testMeta⟩ ∧
    (∃ out outTx,
      sign_transaction serverApi unsignedTxB64 = .ok out ∧
      decodeBase64Strict out = .ok (serializeVTx outTx) ∧
      parseVersionedTx (serializeVTx outTx) = some outTx ∧
      outTx.msgBytes = testMsgBytes ∧
      outTx.sigs = [testKeypair.sigOf testMsgBytes] ∧
      populatedSigCount outTx = 1) :=
  ⟨rfl, rfl, by decide, by decide,
    C3_sign_roundtrip serverApi testKeypair unsignedTxB64 unsignedTxBytes
      ⟨[List.replicate 64 0], testMsgBytes, testMeta⟩ rfl rfl (by decide)
      (by decide) rfl rfl⟩
